import Mathlib

/-!
Verification of the hawker-centre MCP tool server.

This file gives a shallow embedding of the location-aware tool-calling core:
* the open-data gateway (`parseFeature`, `fetchHawkerCentres` with its cache),
* the geo-distance calculator (`calculateDistance`, modelling the haversine
  great-circle computation of the `@turf/distance` library used by the source),
* the proximity ranker (`sortByDistance`, `nearbyHawkers`),
* the three tools and the dispatcher (`getNearbyHawkersTool`, `getClosuresTool`,
  `getHawkerDetailsTool`, `handleCallTool`),
* the out-of-process transport bridge (`MCPClientState`, `handleMessage`,
  `handleTimeout`, `handleExit`).

Numbers that are IEEE doubles in the source are modelled as rationals where
they are data (coordinates stored in records) and as real numbers where they
flow through trigonometry (distances).  JavaScript's `x || d` defaulting on
strings and numbers is modelled by `jsOrStr` / `jsOrNat`, which treat both a
missing field and a falsy present value as triggering the default.
-/

namespace MCP

/-- JavaScript `x || d` for an optional string property: absent or empty
    (falsy) yields the default. -/
def jsOrStr (o : Option String) (d : String) : String :=
  match o with
  | none => d
  | some s => if s = "" then d else s

/-- JavaScript `x || d` for an optional numeric count property: absent or zero
    (falsy) yields the default. -/
def jsOrNat (o : Option Nat) (d : Nat) : Nat :=
  match o with
  | none => d
  | some n => if n = 0 then d else n

/-- Does the character list start with the given needle?  (Helper for
    JavaScript `String.prototype.includes`.) -/
def startsWith : List Char → List Char → Bool
  | _, [] => true
  | [], _ :: _ => false
  | a :: as, b :: bs => a == b && startsWith as bs

/-- JavaScript `haystack.includes(needle)` on character lists. -/
def includesList : List Char → List Char → Bool
  | [], needle => needle.isEmpty
  | c :: rest, needle => startsWith (c :: rest) needle || includesList rest needle

/-- JavaScript `s.includes(sub)` on strings. -/
def strIncludes (s sub : String) : Bool :=
  includesList s.toList sub.toList

/-- JavaScript `s.toLowerCase()` (ASCII case folding), mapped over the
    character list. -/
def strToLower (s : String) : String :=
  ⟨s.data.map Char.toLower⟩

/-- A point of interest (hawker centre) as parsed from the GeoJSON feed in
    `dist/services/data-gov-sg.js`. -/
structure Hawker where
  name : String
  address : String
  postalCode : String
  latitude : ℚ
  longitude : ℚ
  description : String
  status : String
  stallCount : Nat
  photoUrl : String
  deriving DecidableEq

/-- A scheduled-closure record as parsed from the closure feed. -/
structure Closure where
  name : String
  quarter : String
  closureDates : String
  reason : String
  deriving DecidableEq

/-- A raw GeoJSON feature of the point-of-interest feed: a `[lon, lat]`
    coordinate pair plus the named properties the parser reads.  Properties
    that the source defaults with `||` are optional here. -/
structure RawFeature where
  coordinates : ℚ × ℚ
  NAME : String
  ADDRESSBLOCKHOUSENUMBER : String
  ADDRESSSTREETNAME : String
  ADDRESSPOSTALCODE : Option String
  DESCRIPTION : Option String
  STATUS : Option String
  NUMBER_OF_COOKED_FOOD_STALLS : Option Nat
  PHOTOURL : Option String
  deriving DecidableEq

/-- The per-feature parser of `fetchHawkerCentres` (step 3 in the source):
    reads the fixed set of named properties, applying the `||` defaults of the
    source (`''` for postal code, description and photo URL, `'Unknown'` for
    status, `0` for the stall count); GeoJSON stores `[lng, lat]`. -/
def parseFeature (f : RawFeature) : Hawker :=
  { name := f.NAME
    address := f.ADDRESSBLOCKHOUSENUMBER ++ " " ++ f.ADDRESSSTREETNAME
    postalCode := jsOrStr f.ADDRESSPOSTALCODE ""
    latitude := f.coordinates.2
    longitude := f.coordinates.1
    description := jsOrStr f.DESCRIPTION ""
    status := jsOrStr f.STATUS "Unknown"
    stallCount := jsOrNat f.NUMBER_OF_COOKED_FOOD_STALLS 0
    photoUrl := jsOrStr f.PHOTOURL "" }

/-- The module-level cache state of the point-of-interest pipeline:
    `cachedHawkers`/`cacheTimestamp` in `data-gov-sg.js`. -/
structure CacheState where
  cachedHawkers : Option (List Hawker)
  cacheTimestamp : ℤ
  deriving DecidableEq

/-- 24 hours in milliseconds (`CACHE_DURATION`). -/
def CACHE_DURATION : ℤ := 24 * 60 * 60 * 1000

/-- Outcome of the two-step fetch: the poll request runs first; only if it
    succeeds is the data request's outcome consulted (in the source a failed
    poll throws before the download is attempted). -/
def feedResponse (poll : Except String Unit) (data : Except String (List RawFeature)) :
    Except String (List RawFeature) :=
  match poll with
  | .error e => .error e
  | .ok _ => data

/-- The body of the `try`/`catch` in `fetchHawkerCentres`: on a successful
    two-step fetch, parse and replace the cache; on failure, serve a nonempty
    cache unchanged (stale-serving) and otherwise return the empty
    collection.  Never raises. -/
def attemptFetch (st : CacheState) (now : ℤ) (poll : Except String Unit)
    (data : Except String (List RawFeature)) : List Hawker × CacheState :=
  match feedResponse poll data with
  | .ok features =>
    let hawkers := features.map parseFeature
    (hawkers, { cachedHawkers := some hawkers, cacheTimestamp := now })
  | .error _ =>
    match st.cachedHawkers with
    | some cached => if 0 < cached.length then (cached, st) else ([], st)
    | none => ([], st)

/-- `fetchHawkerCentres` of `data-gov-sg.js`, as a pure state-passing
    function: the module cache and the clock reading are explicit inputs, the
    outcomes of the two HTTP requests are explicit parameters, and the result
    is the returned collection together with the updated cache. -/
def fetchHawkerCentres (st : CacheState) (now : ℤ) (poll : Except String Unit)
    (data : Except String (List RawFeature)) : List Hawker × CacheState :=
  match st.cachedHawkers with
  | some cached =>
    if now - st.cacheTimestamp < CACHE_DURATION then (cached, st)
    else attemptFetch st now poll data
  | none => attemptFetch st now poll data

/-- Degrees to radians, as in `@turf/helpers`. -/
noncomputable def degreesToRadians (d : ℝ) : ℝ := d * (Real.pi / 180)

/-- Earth radius used by turf, in kilometres (6371008.8 metres). -/
noncomputable def earthRadiusKm : ℝ := 6371.0088

/-- JavaScript `Math.atan2 y x`, restricted to the quadrants reachable from
    nonnegative square roots (which is all the haversine computation uses);
    on the remaining quadrants it follows the usual atan2 case split. -/
noncomputable def atan2 (y x : ℝ) : ℝ :=
  if 0 < x then Real.arctan (y / x)
  else if x < 0 then
    (if 0 ≤ y then Real.arctan (y / x) + Real.pi else Real.arctan (y / x) - Real.pi)
  else
    (if 0 < y then Real.pi / 2 else if y < 0 then -(Real.pi / 2) else 0)

/-- Modelled from the spec: the great-circle (haversine) distance of the
    `@turf/distance` library (a third-party dependency whose source is not in
    the repository); §4.1 of the spec describes it as a haversine-equivalent
    great-circle formula on a spherical Earth.  Points are `[lon, lat]` pairs
    in degrees, result in kilometres. -/
noncomputable def turfDistanceKm (p q : ℝ × ℝ) : ℝ :=
  let dLat := degreesToRadians (q.2 - p.2)
  let dLon := degreesToRadians (q.1 - p.1)
  let lat1 := degreesToRadians p.2
  let lat2 := degreesToRadians q.2
  let a := Real.sin (dLat / 2) ^ 2 +
    Real.sin (dLon / 2) ^ 2 * Real.cos lat1 * Real.cos lat2
  earthRadiusKm * (2 * atan2 (Real.sqrt a) (Real.sqrt (1 - a)))

/-- `calculateDistance` of `services/distance.ts`: builds `[lon, lat]` points,
    takes the turf distance in kilometres and converts to metres. -/
noncomputable def calculateDistance (lat1 lon1 lat2 lon2 : ℝ) : ℝ :=
  turfDistanceKm (lon1, lat1) (lon2, lat2) * 1000

/-- A ranked candidate: the `HawkerWithDistance` record of
    `services/distance.ts` — every field of the source hawker plus the
    computed distance in metres. -/
structure HawkerWithDistance where
  name : String
  address : String
  postalCode : String
  latitude : ℚ
  longitude : ℚ
  description : String
  status : String
  stallCount : Nat
  photoUrl : String
  distance : ℝ

/-- The object spread `{ ...hawker, distance: calculateDistance(...) }`. -/
noncomputable def attachDistance (userLat userLon : ℝ) (h : Hawker) : HawkerWithDistance :=
  { name := h.name
    address := h.address
    postalCode := h.postalCode
    latitude := h.latitude
    longitude := h.longitude
    description := h.description
    status := h.status
    stallCount := h.stallCount
    photoUrl := h.photoUrl
    distance := calculateDistance userLat userLon (h.latitude : ℝ) (h.longitude : ℝ) }

/-- Forgetting the attached distance recovers the source hawker. -/
def HawkerWithDistance.toHawker (x : HawkerWithDistance) : Hawker :=
  { name := x.name
    address := x.address
    postalCode := x.postalCode
    latitude := x.latitude
    longitude := x.longitude
    description := x.description
    status := x.status
    stallCount := x.stallCount
    photoUrl := x.photoUrl }

/-- The comparator of `sortByDistance`: `(a, b) => a.distance - b.distance`
    sorts ascending by distance. -/
def distLE (a b : HawkerWithDistance) : Prop := a.distance ≤ b.distance

noncomputable instance : DecidableRel distLE :=
  fun a b => inferInstanceAs (Decidable (a.distance ≤ b.distance))

instance : IsTotal HawkerWithDistance distLE :=
  ⟨fun a b => le_total a.distance b.distance⟩

instance : IsTrans HawkerWithDistance distLE :=
  ⟨fun _ _ _ hab hbc => le_trans hab hbc⟩

/-- `sortByDistance` of `services/distance.ts`: attach the computed distance
    to every entry, then stable-sort ascending by distance (the JavaScript
    engine's `Array.prototype.sort` is stable; `insertionSort` is the stable
    sort of the embedding). -/
noncomputable def sortByDistance (userLat userLon : ℝ) (hawkers : List Hawker) :
    List HawkerWithDistance :=
  List.insertionSort distLE (hawkers.map (attachDistance userLat userLon))

/-- The candidate list of `getNearbyHawkersTool`:
    `sortByDistance(...).filter(h => h.distance <= radius).slice(0, limit)`. -/
noncomputable def nearbyHawkers (lat lon radius : ℝ) (limit : Nat)
    (hawkers : List Hawker) : List HawkerWithDistance :=
  (((sortByDistance lat lon hawkers).filter
    (fun h => decide (h.distance ≤ radius))).take limit)

/-- Rendering of a rational number into the response text (stands in for
    JavaScript's decimal printing of a double). -/
def renderNum (q : ℚ) : String :=
  if q.den = 1 then toString q.num else toString q.num ++ "/" ++ toString q.den

/-- One content block of a tool result (only kind `"text"` is produced). -/
structure ContentBlock where
  type : String
  text : String
  deriving DecidableEq

/-- The uniform content envelope every tool handler returns. -/
structure ToolResult where
  content : List ContentBlock
  deriving DecidableEq

/-- The fixed sentence of `getClosuresTool` for zero matching records. -/
def noClosuresText (hawkerName : String) : String :=
  "No scheduled closures found for \"" ++ hawkerName ++
    "\". It should be open as per the latest data."

/-- The fixed sentence of `getHawkerDetailsTool` when no entry matches. -/
def couldNotFindText (hawkerName : String) : String :=
  "Could not find details for \"" ++ hawkerName ++
    "\". Please check the name and try again."

/-- The closure records whose name contains the requested name
    case-insensitively (`closures.ts`). -/
def matchingClosures (closures : List Closure) (hawkerName : String) : List Closure :=
  closures.filter (fun c => strIncludes (strToLower c.name) (strToLower hawkerName))

/-- The listing body of `getClosuresTool` for a nonempty match. -/
def closureReportText (hawkerName : String) (cs : List Closure) : String :=
  "Closure information for \"" ++ hawkerName ++ "\":\n\n" ++
    String.intercalate "\n\n"
      (cs.map (fun c => "• " ++ c.quarter ++ ": " ++ c.closureDates ++
        "\n  Reason: " ++ c.reason))

/-- `getClosuresTool` of `tools/closures.ts`, with the fetched closure
    collection passed explicitly: filter by case-insensitive substring; zero
    matches produce the fixed "no scheduled closures" sentence as an ordinary
    text result. -/
def getClosuresTool (closures : List Closure) (hawkerName : String) : ToolResult :=
  let matched := matchingClosures closures hawkerName
  if matched.length = 0 then
    { content := [{ type := "text", text := noClosuresText hawkerName }] }
  else
    { content := [{ type := "text", text := closureReportText hawkerName matched }] }

/-- The selection of `getHawkerDetailsTool`: first entry with an exact
    case-insensitive name match, else (`||`) first entry whose name contains
    the requested name case-insensitively. -/
def findHawker (hawkers : List Hawker) (hawkerName : String) : Option Hawker :=
  (hawkers.find? (fun h => (strToLower h.name) == (strToLower hawkerName))).orElse
    (fun _ => hawkers.find? (fun h => strIncludes (strToLower h.name) (strToLower hawkerName)))

/-- The success body of `getHawkerDetailsTool`; the description and photo
    lines are appended only when the field is nonempty (JavaScript
    truthiness on strings). -/
def detailsText (h : Hawker) : String :=
  "Details for " ++ h.name ++ ":\n\n" ++
  "Address: " ++ h.address ++ ", Singapore " ++ h.postalCode ++ "\n" ++
  "Status: " ++ h.status ++ "\n" ++
  "Number of Stalls: " ++ toString h.stallCount ++ " cooked food stalls\n" ++
  "Coordinates: " ++ renderNum h.latitude ++ ", " ++ renderNum h.longitude ++ "\n" ++
  (if h.description = "" then "" else "\nDescription: " ++ h.description ++ "\n") ++
  (if h.photoUrl = "" then "" else "\n![" ++ h.name ++ "](" ++ h.photoUrl ++ ")")

/-- `getHawkerDetailsTool` of `tools/details.ts`, with the fetched collection
    passed explicitly. -/
def getHawkerDetailsTool (hawkers : List Hawker) (hawkerName : String) : ToolResult :=
  match findHawker hawkers hawkerName with
  | none => { content := [{ type := "text", text := couldNotFindText hawkerName }] }
  | some h => { content := [{ type := "text", text := detailsText h }] }

/-- The numbered-list body of `getNearbyHawkersTool` for a nonempty result. -/
noncomputable def nearbyListText (nearby : List HawkerWithDistance) : String :=
  String.intercalate "\n"
    (nearby.enum.map (fun p =>
      toString (p.1 + 1) ++ ". " ++ p.2.name ++ "\n" ++
      "   Address: " ++ p.2.address ++ "\n" ++
      "   Distance: " ++ toString (round p.2.distance) ++ "m away\n" ++
      "   Stalls: " ++ toString p.2.stallCount ++ " cooked food stalls\n" ++
      "   Status: " ++ p.2.status ++ "\n"))

/-- The response text of `getNearbyHawkersTool`. -/
noncomputable def nearbyResponseText (radius : ℚ) (nearby : List HawkerWithDistance) :
    String :=
  if 0 < nearby.length then
    "Found " ++ toString nearby.length ++ " Hawker centres within " ++
      renderNum radius ++ "m:\n\n" ++ nearbyListText nearby
  else
    "No Hawker centres found within " ++ renderNum radius ++ "m of your location."

/-- The argument map of a tool call; every field is optional because the
    dispatcher performs no schema validation. -/
structure CallArgs where
  latitude : Option ℚ
  longitude : Option ℚ
  radius : Option ℚ
  limit : Option Nat
  hawkerName : Option String
  deriving DecidableEq

/-- `getNearbyHawkersTool` of `tools/nearby-hawkers.ts`, with the fetched
    collection passed explicitly.  Destructuring defaults: radius 2000,
    limit 10.  (A missing required coordinate is modelled as 0; the source
    would propagate `undefined` into the arithmetic instead.) -/
noncomputable def getNearbyHawkersTool (args : CallArgs) (hawkers : List Hawker) :
    ToolResult :=
  let latitude : ℚ := args.latitude.getD 0
  let longitude : ℚ := args.longitude.getD 0
  let radius : ℚ := args.radius.getD 2000
  let limit : Nat := args.limit.getD 10
  let nearby := nearbyHawkers (latitude : ℝ) (longitude : ℝ) (radius : ℝ) limit hawkers
  { content := [{ type := "text", text := nearbyResponseText radius nearby }] }

/-- The protocol error codes used by the dispatcher. -/
inductive ErrorCode where
  | methodNotFound
  | internalError
  deriving DecidableEq

/-- A protocol-level error (`McpError`): never a content result. -/
structure McpError where
  code : ErrorCode
  message : String
  deriving DecidableEq

/-- The `tools/call` dispatch of `index.ts`: route the three known tool names
    to their handlers; any other name raises `McpError(MethodNotFound,
    "Unknown tool: ...")` at the protocol level. -/
noncomputable def handleCallTool (name : String) (args : CallArgs)
    (hawkers : List Hawker) (closures : List Closure) : Except McpError ToolResult :=
  if name = "get_nearby_hawkers" then
    .ok (getNearbyHawkersTool args hawkers)
  else if name = "check_hawker_closures" then
    .ok (getClosuresTool closures (args.hawkerName.getD ""))
  else if name = "get_hawker_details" then
    .ok (getHawkerDetailsTool hawkers (args.hawkerName.getD ""))
  else
    .error { code := .methodNotFound, message := "Unknown tool: " ++ name }

/-- The mutable state of the `MCPClient` bridge: the child-process handle
    (`none` = not started), the monotonically increasing message counter, and
    the ids of the outstanding pending requests (the keys of
    `pendingRequests`; the resolve/reject handles are represented by the
    `Completion` outputs of the transition functions). -/
structure MCPClientState where
  process : Option Unit
  messageId : ℤ
  pendingRequests : List ℤ
  deriving DecidableEq

/-- Settling a pending completion handle: the promise for `id` is resolved
    with the result payload, or rejected with an error message. -/
inductive Completion where
  | resolved (id : ℤ)
  | rejected (id : ℤ) (msg : String)
  deriving DecidableEq

/-- The error object of a wire response; its `message` property may be
    absent. -/
structure WireError where
  message : Option String
  deriving DecidableEq

/-- A parsed line-delimited JSON message from the child's stdout: an optional
    response id and an optional error object (the result payload itself plays
    no role in correlation). -/
structure WireMessage where
  id : Option ℤ
  error : Option WireError
  deriving DecidableEq

/-- `MCPClient.handleMessage`: ignore messages without an id; for a known
    pending id, remove the entry and reject (with `error.message || 'MCP
    error'`) or resolve; for an unknown id, change nothing. -/
def handleMessage (st : MCPClientState) (msg : WireMessage) :
    MCPClientState × List Completion :=
  match msg.id with
  | none => (st, [])
  | some i =>
    if st.pendingRequests.contains i then
      let st' := { st with pendingRequests := st.pendingRequests.erase i }
      match msg.error with
      | some e => (st', [.rejected i (jsOrStr e.message "MCP error")])
      | none => (st', [.resolved i])
    else (st, [])

/-- The 30-second timeout callback of `MCPClient.sendRequest` for request
    `i`: if the request is still pending, remove it and reject with the
    timeout error; otherwise do nothing. -/
def handleTimeout (st : MCPClientState) (i : ℤ) :
    MCPClientState × List Completion :=
  if st.pendingRequests.contains i then
    ({ st with pendingRequests := st.pendingRequests.erase i },
     [.rejected i "MCP request timeout"])
  else (st, [])

/-- The `exit` handler installed by `MCPClient.start`: clear the process
    handle (back to not-started), reject every outstanding pending request
    with the "exited" error, and clear the pending map. -/
def handleExit (st : MCPClientState) : MCPClientState × List Completion :=
  ({ st with process := none, pendingRequests := [] },
   st.pendingRequests.map (fun i => .rejected i "MCP server exited"))

/-- `MCPClient.sendRequest` (the synchronous part): allocate the next id and
    register the pending entry (JavaScript `Map` preserves insertion
    order). -/
def sendRequest (st : MCPClientState) : MCPClientState × ℤ :=
  let i := st.messageId + 1
  ({ st with messageId := i, pendingRequests := st.pendingRequests ++ [i] }, i)

/-! ### Helper lemmas -/

lemma sin_sq_swap (x y : ℝ) :
    Real.sin (degreesToRadians (x - y) / 2) ^ 2 =
      Real.sin (degreesToRadians (y - x) / 2) ^ 2 := by
  have h : degreesToRadians (x - y) / 2 = -(degreesToRadians (y - x) / 2) := by
    unfold degreesToRadians; ring
  rw [h, Real.sin_neg]; ring

lemma turfDistanceKm_symm (p q : ℝ × ℝ) : turfDistanceKm p q = turfDistanceKm q p := by
  have ha :
      Real.sin (degreesToRadians (q.2 - p.2) / 2) ^ 2 +
        Real.sin (degreesToRadians (q.1 - p.1) / 2) ^ 2 *
          Real.cos (degreesToRadians p.2) * Real.cos (degreesToRadians q.2) =
      Real.sin (degreesToRadians (p.2 - q.2) / 2) ^ 2 +
        Real.sin (degreesToRadians (p.1 - q.1) / 2) ^ 2 *
          Real.cos (degreesToRadians q.2) * Real.cos (degreesToRadians p.2) := by
    rw [sin_sq_swap q.2 p.2, sin_sq_swap q.1 p.1]; ring
  simp only [turfDistanceKm]
  rw [ha]

lemma turfDistanceKm_self (p : ℝ × ℝ) : turfDistanceKm p p = 0 := by
  norm_num [turfDistanceKm, degreesToRadians, atan2, Real.arctan_zero]

lemma atan2_nonneg {y x : ℝ} (hy : 0 ≤ y) (hx : 0 ≤ x) : 0 ≤ atan2 y x := by
  unfold atan2
  split_ifs <;>
    first
      | linarith [Real.pi_pos]
      | (calc (0:ℝ) = Real.arctan 0 := Real.arctan_zero.symm
          _ ≤ Real.arctan (y / x) :=
            Real.arctan_strictMono.monotone (div_nonneg hy (by linarith)))

lemma turfDistanceKm_nonneg (p q : ℝ × ℝ) : 0 ≤ turfDistanceKm p q := by
  simp only [turfDistanceKm]
  apply mul_nonneg
  · norm_num [earthRadiusKm]
  · apply mul_nonneg (by norm_num)
    exact atan2_nonneg (Real.sqrt_nonneg _) (Real.sqrt_nonneg _)

/-! ### Claim theorems -/

/-- C7: `calculateDistance` is symmetric in its two coordinate pairs, the
    distance of a point to itself is exactly 0 (hence within the 1e-6 metre
    tolerance), and the result is nonnegative for all (finite real)
    inputs. -/
theorem calculateDistance_symm_self_nonneg (lat1 lon1 lat2 lon2 : ℝ) :
    calculateDistance lat1 lon1 lat2 lon2 = calculateDistance lat2 lon2 lat1 lon1 ∧
    calculateDistance lat1 lon1 lat1 lon1 = 0 ∧
    calculateDistance lat1 lon1 lat1 lon1 < 1e-6 ∧
    0 ≤ calculateDistance lat1 lon1 lat2 lon2 := by
  refine ⟨?_, ?_, ?_, ?_⟩
  · unfold calculateDistance
    rw [turfDistanceKm_symm]
  · unfold calculateDistance
    rw [turfDistanceKm_self]; ring
  · unfold calculateDistance
    rw [turfDistanceKm_self]; norm_num
  · unfold calculateDistance
    have := turfDistanceKm_nonneg (lon1, lat1) (lon2, lat2)
    linarith

/-- C1: the candidate list of the nearby search contains at most `limit`
    entries, every entry's computed distance is at most `radius`, and the
    list is sorted nondecreasing by distance. -/
theorem nearby_limit_radius_sorted (lat lon radius : ℝ) (limit : Nat)
    (hawkers : List Hawker) :
    (nearbyHawkers lat lon radius limit hawkers).length ≤ limit ∧
    (nearbyHawkers lat lon radius limit hawkers).all
      (fun h => decide (h.distance ≤ radius)) = true ∧
    List.Sorted distLE (nearbyHawkers lat lon radius limit hawkers) := by
  refine ⟨?_, ?_, ?_⟩
  · exact List.length_take_le limit _
  · rw [List.all_eq_true]
    intro h hmem
    have hmem' : h ∈ (sortByDistance lat lon hawkers).filter
        (fun h => decide (h.distance ≤ radius)) :=
      List.Sublist.mem hmem (List.take_sublist _ _)
    exact (List.mem_filter.mp hmem').2
  · have hs : List.Sorted distLE (sortByDistance lat lon hawkers) :=
      List.sorted_insertionSort distLE _
    have hsub : List.Sublist (nearbyHawkers lat lon radius limit hawkers)
        (sortByDistance lat lon hawkers) :=
      (List.take_sublist _ _).trans (List.filter_sublist _)
    exact List.Pairwise.sublist hsub hs

/-- C10: the ranker neither drops, invents nor alters entries — stripping the
    attached distance from the output of `sortByDistance` gives a permutation
    of the input collection, and the attached distance of every output entry
    is exactly the computed distance of its (unchanged) coordinates from the
    query point. -/
theorem sortByDistance_preserves_fields (u v : ℝ) (hawkers : List Hawker) :
    ((sortByDistance u v hawkers).map
        (fun x => (x.toHawker, x.distance))).Perm
      (hawkers.map (fun h =>
        (h, calculateDistance u v (h.latitude : ℝ) (h.longitude : ℝ)))) := by
  have hperm : (sortByDistance u v hawkers).Perm
      (hawkers.map (attachDistance u v)) :=
    List.perm_insertionSort distLE _
  have h2 := hperm.map (fun x : HawkerWithDistance => (x.toHawker, x.distance))
  simpa [List.map_map, Function.comp, attachDistance,
    HawkerWithDistance.toHawker] using h2

/-- C2: when the two-step point-of-interest fetch fails, a cache populated by
    a previous successful fetch — even an expired one — is returned unchanged
    (the cache state is also untouched), and no error is raised (the function
    is total, returning a plain pair); with no cache, the empty collection is
    returned. -/
theorem fetch_failure_serves_cache (st : CacheState) (now : ℤ)
    (poll : Except String Unit) (data : Except String (List RawFeature))
    (e : String) (hfail : feedResponse poll data = .error e) :
    (∀ c, st.cachedHawkers = some c →
      fetchHawkerCentres st now poll data = (c, st)) ∧
    (st.cachedHawkers = none →
      fetchHawkerCentres st now poll data = ([], st)) := by
  constructor
  · intro c hc
    simp only [fetchHawkerCentres, hc]
    split_ifs with hfresh
    · rfl
    · simp only [attemptFetch, hfail, hc]
      split_ifs with hlen
      · rfl
      · have hnil : c = [] := by
          cases c with
          | nil => rfl
          | cons a t => simp at hlen
        rw [hnil]
  · intro hc
    simp [fetchHawkerCentres, hc, attemptFetch, hfail]

/-- A concrete point of interest used by the evaluation witnesses. -/
def demoHawker : Hawker :=
  { name := "Maxwell Food Centre"
    address := "1 Kadayanallur Street"
    postalCode := "069184"
    latitude := 1
    longitude := 103
    description := ""
    status := "Operational"
    stallCount := 100
    photoUrl := "" }

theorem fetch_failure_serves_cache_witness :
    fetchHawkerCentres ⟨some [demoHawker], 0⟩ (CACHE_DURATION + 1)
        (.error "network down") (.ok []) = ([demoHawker], ⟨some [demoHawker], 0⟩) ∧
    fetchHawkerCentres ⟨none, 0⟩ 0 (.error "network down") (.ok []) =
      ([], ⟨none, 0⟩) :=
  ⟨(fetch_failure_serves_cache ⟨some [demoHawker], 0⟩ (CACHE_DURATION + 1)
      (.error "network down") (.ok []) "network down" rfl).1 [demoHawker] rfl,
   (fetch_failure_serves_cache ⟨none, 0⟩ 0
      (.error "network down") (.ok []) "network down" rfl).2 rfl⟩

/-- C3: dispatching any tool name outside the registered set
    {get_nearby_hawkers, check_hawker_closures, get_hawker_details} yields
    the protocol-level MethodNotFound error "Unknown tool: ..." and never a
    content-block result. -/
theorem unknown_tool_is_protocol_error (name : String) (args : CallArgs)
    (hawkers : List Hawker) (closures : List Closure) (r : ToolResult)
    (h1 : name ≠ "get_nearby_hawkers") (h2 : name ≠ "check_hawker_closures")
    (h3 : name ≠ "get_hawker_details") :
    handleCallTool name args hawkers closures =
      .error { code := .methodNotFound, message := "Unknown tool: " ++ name } ∧
    handleCallTool name args hawkers closures ≠ .ok r := by
  unfold handleCallTool
  rw [if_neg h1, if_neg h2, if_neg h3]
  exact ⟨rfl, by simp⟩

theorem unknown_tool_is_protocol_error_witness :
    handleCallTool "get_weather" ⟨none, none, none, none, none⟩ [] [] =
      .error { code := .methodNotFound, message := "Unknown tool: " ++ "get_weather" } ∧
    handleCallTool "get_weather" ⟨none, none, none, none, none⟩ [] [] ≠
      .ok { content := [] } :=
  unknown_tool_is_protocol_error "get_weather" ⟨none, none, none, none, none⟩
    [] [] { content := [] } (by decide) (by decide) (by decide)

/-- A raw feature all of whose optional properties are absent. -/
def bareFeature : RawFeature :=
  { coordinates := (103, 1)
    NAME := "Place A"
    ADDRESSBLOCKHOUSENUMBER := "1"
    ADDRESSSTREETNAME := "Some Street"
    ADDRESSPOSTALCODE := none
    DESCRIPTION := none
    STATUS := none
    NUMBER_OF_COOKED_FOOD_STALLS := none
    PHOTOURL := none }

/-- C4 counterexample: the claim says every absent string property defaults
    to the empty string, but an absent STATUS parses to "Unknown", which is
    not empty. -/
theorem parse_status_default_cex :
    bareFeature.STATUS = none ∧
    (parseFeature bareFeature).status = "Unknown" ∧
    (parseFeature bareFeature).status ≠ "" :=
  ⟨rfl, rfl, by decide⟩

/-- C4 (amended): for an absent named property, the parser defaults the stall
    count to 0 and the postal code, description and photo URL to the empty
    string; the status defaults to "Unknown" rather than the empty string. -/
theorem parse_defaults (f : RawFeature) :
    (f.ADDRESSPOSTALCODE = none → (parseFeature f).postalCode = "") ∧
    (f.DESCRIPTION = none → (parseFeature f).description = "") ∧
    (f.PHOTOURL = none → (parseFeature f).photoUrl = "") ∧
    (f.NUMBER_OF_COOKED_FOOD_STALLS = none → (parseFeature f).stallCount = 0) ∧
    (f.STATUS = none → (parseFeature f).status = "Unknown") := by
  refine ⟨?_, ?_, ?_, ?_, ?_⟩ <;>
    (intro h; simp [parseFeature, jsOrStr, jsOrNat, h])

theorem parse_defaults_witness :
    (parseFeature bareFeature).postalCode = "" ∧
    (parseFeature bareFeature).description = "" ∧
    (parseFeature bareFeature).photoUrl = "" ∧
    (parseFeature bareFeature).stallCount = 0 ∧
    (parseFeature bareFeature).status = "Unknown" :=
  ⟨(parse_defaults bareFeature).1 rfl,
   (parse_defaults bareFeature).2.1 rfl,
   (parse_defaults bareFeature).2.2.1 rfl,
   (parse_defaults bareFeature).2.2.2.1 rfl,
   (parse_defaults bareFeature).2.2.2.2 rfl⟩

lemma find?_decomp {α : Type _} (p : α → Bool) :
    ∀ {l : List α} {a : α}, l.find? p = some a →
      ∃ pre post, l = pre ++ a :: post ∧ p a = true ∧ ∀ x ∈ pre, p x = false := by
  intro l
  induction l with
  | nil => intro a h; simp at h
  | cons b t ih =>
    intro a h
    by_cases hb : p b = true
    · rw [List.find?_cons_of_pos _ hb] at h
      cases h
      exact ⟨[], t, rfl, hb, by simp⟩
    · have hb' : p b = false := by revert hb; cases p b <;> simp
      rw [List.find?_cons_of_neg _ hb] at h
      obtain ⟨pre, post, hl, hpa, hpre⟩ := ih h
      refine ⟨b :: pre, post, by rw [hl, List.cons_append], hpa, ?_⟩
      intro x hx
      rcases List.mem_cons.mp hx with h1 | h1
      · rw [h1]; exact hb'
      · exact hpre x h1

/-- C5: the details tool selects the first entry whose name matches the
    subject exactly (case-insensitively); only when no exact match exists
    does it select the first case-insensitive substring match; and when
    neither exists it returns the fixed "could not find" sentence as an
    ordinary (successful) text result, not an error. -/
theorem details_selection (hawkers : List Hawker) (nm : String) :
    (∀ h, findHawker hawkers nm = some h →
      ∃ pre post, hawkers = pre ++ h :: post ∧
        ((((strToLower h.name) == (strToLower nm)) = true ∧
            ∀ x ∈ pre, ((strToLower x.name) == (strToLower nm)) = false) ∨
         ((∀ x ∈ hawkers, ((strToLower x.name) == (strToLower nm)) = false) ∧
            strIncludes (strToLower h.name) (strToLower nm) = true ∧
            ∀ x ∈ pre, strIncludes (strToLower x.name) (strToLower nm) = false))) ∧
    (findHawker hawkers nm = none ↔
      ∀ x ∈ hawkers, ((strToLower x.name) == (strToLower nm)) = false ∧
        strIncludes (strToLower x.name) (strToLower nm) = false) ∧
    (findHawker hawkers nm = none →
      getHawkerDetailsTool hawkers nm =
        { content := [{ type := "text", text := couldNotFindText nm }] }) := by
  refine ⟨?_, ?_, ?_⟩
  · intro h hfh
    unfold findHawker at hfh
    cases hex : hawkers.find? (fun h => (strToLower h.name) == (strToLower nm)) with
    | some h0 =>
      rw [hex] at hfh
      simp only [Option.orElse] at hfh
      cases hfh
      obtain ⟨pre, post, hl, hpa, hpre⟩ := find?_decomp _ hex
      exact ⟨pre, post, hl, Or.inl ⟨hpa, hpre⟩⟩
    | none =>
      rw [hex] at hfh
      simp only [Option.orElse] at hfh
      obtain ⟨pre, post, hl, hpa, hpre⟩ := find?_decomp _ hfh
      refine ⟨pre, post, hl, Or.inr ⟨?_, hpa, hpre⟩⟩
      intro x hx
      have := List.find?_eq_none.mp hex x hx
      revert this
      cases (strToLower x.name) == (strToLower nm) <;> simp
  · constructor
    · intro hn
      unfold findHawker at hn
      cases hex : hawkers.find? (fun h => (strToLower h.name) == (strToLower nm)) with
      | some h0 => rw [hex] at hn; simp [Option.orElse] at hn
      | none =>
        rw [hex] at hn
        simp only [Option.orElse] at hn
        intro x hx
        constructor
        · have := List.find?_eq_none.mp hex x hx
          revert this
          cases (strToLower x.name) == (strToLower nm) <;> simp
        · have := List.find?_eq_none.mp hn x hx
          revert this
          cases strIncludes (strToLower x.name) (strToLower nm) <;> simp
    · intro hall
      have h1 : hawkers.find? (fun h => (strToLower h.name) == (strToLower nm)) = none :=
        List.find?_eq_none.mpr (fun a ha => by simp [(hall a ha).1])
      have h2 : hawkers.find?
          (fun h => strIncludes (strToLower h.name) (strToLower nm)) = none :=
        List.find?_eq_none.mpr (fun a ha => by simp [(hall a ha).2])
      simp [findHawker, h1, h2, Option.orElse]
  · intro hn
    simp [getHawkerDetailsTool, hn]

theorem details_selection_witness :
    getHawkerDetailsTool [demoHawker] "zzz" =
      { content := [{ type := "text", text := couldNotFindText "zzz" }] } ∧
    (∃ pre post, [demoHawker] = pre ++ demoHawker :: post ∧
      ((((strToLower demoHawker.name) == (strToLower "maxwell food centre")) = true ∧
          ∀ x ∈ pre, ((strToLower x.name) == (strToLower "maxwell food centre")) = false) ∨
       ((∀ x ∈ [demoHawker],
            ((strToLower x.name) == (strToLower "maxwell food centre")) = false) ∧
          strIncludes (strToLower demoHawker.name) (strToLower "maxwell food centre") = true ∧
          ∀ x ∈ pre,
            strIncludes (strToLower x.name) (strToLower "maxwell food centre") = false))) :=
  ⟨(details_selection [demoHawker] "zzz").2.2 (by decide),
   (details_selection [demoHawker] "maxwell food centre").1 demoHawker (by decide)⟩

/-- C6: the closures tool matches records by case-insensitive substring of
    the record name, and zero matching records produce the fixed "no
    scheduled closures" sentence as an ordinary (successful) text result,
    not an error. -/
theorem closures_substring_and_sentinel (closures : List Closure) (nm : String) :
    (∀ c, c ∈ matchingClosures closures nm ↔
      (c ∈ closures ∧ strIncludes (strToLower c.name) (strToLower nm) = true)) ∧
    (matchingClosures closures nm = [] →
      getClosuresTool closures nm =
        { content := [{ type := "text", text := noClosuresText nm }] }) := by
  constructor
  · intro c
    simp [matchingClosures, List.mem_filter]
  · intro h
    simp [getClosuresTool, h]

/-- A concrete closure record used by the evaluation witnesses. -/
def demoClosure : Closure :=
  { name := "Lau Pa Sat"
    quarter := "Q1"
    closureDates := "1 Mar"
    reason := "Cleaning" }

theorem closures_substring_and_sentinel_witness :
    (demoClosure ∈ matchingClosures [demoClosure] "lau" ↔
      (demoClosure ∈ [demoClosure] ∧
        strIncludes (strToLower demoClosure.name) (strToLower "lau") = true)) ∧
    getClosuresTool [demoClosure] "zzz" =
      { content := [{ type := "text", text := noClosuresText "zzz" }] } :=
  ⟨(closures_substring_and_sentinel [demoClosure] "lau").1 demoClosure,
   (closures_substring_and_sentinel [demoClosure] "zzz").2 (by decide)⟩

/-- C8: a pending request that times out is rejected with the timeout error
    and its entry removed; a response carrying the same id afterwards finds
    no pending entry and changes nothing. -/
theorem timeout_rejects_removes_then_ignores (st : MCPClientState) (i : ℤ)
    (msg : WireMessage) (hnd : st.pendingRequests.Nodup)
    (hmem : i ∈ st.pendingRequests) (hid : msg.id = some i) :
    (handleTimeout st i).2 = [Completion.rejected i "MCP request timeout"] ∧
    i ∉ (handleTimeout st i).1.pendingRequests ∧
    handleMessage (handleTimeout st i).1 msg = ((handleTimeout st i).1, []) := by
  have hni : i ∉ st.pendingRequests.erase i := by
    intro hx
    exact ((List.Nodup.mem_erase_iff hnd).mp hx).1 rfl
  refine ⟨?_, ?_, ?_⟩
  · simp [handleTimeout, hmem]
  · simpa [handleTimeout, hmem] using hni
  · simp [handleMessage, hid, handleTimeout, hmem, hni]

theorem timeout_rejects_removes_then_ignores_witness :
    (handleTimeout ⟨some (), 2, [1, 2]⟩ 2).2 =
      [Completion.rejected 2 "MCP request timeout"] ∧
    (2 : ℤ) ∉ (handleTimeout ⟨some (), 2, [1, 2]⟩ 2).1.pendingRequests ∧
    handleMessage (handleTimeout ⟨some (), 2, [1, 2]⟩ 2).1 ⟨some 2, none⟩ =
      ((handleTimeout ⟨some (), 2, [1, 2]⟩ 2).1, []) :=
  timeout_rejects_removes_then_ignores ⟨some (), 2, [1, 2]⟩ 2 ⟨some 2, none⟩
    (by decide) (by decide) rfl

/-- C9: when the child process exits, the bridge clears its process handle
    back to the not-started state, empties the pending map, and rejects every
    outstanding pending request with the "exited" error. -/
theorem exit_rejects_all_and_resets (st : MCPClientState) :
    (handleExit st).1.process = none ∧
    (handleExit st).1.pendingRequests = [] ∧
    (handleExit st).2 =
      st.pendingRequests.map (fun i => Completion.rejected i "MCP server exited") :=
  ⟨rfl, rfl, rfl⟩

end MCP
